import Mathlib

/-!
Shallow embedding of the tomlconf configuration library (src/config.rs).

The library locates, loads, creates, and persists a single structured
configuration file.  Filesystem effects are modelled by an explicit world
state threaded through every operation: an association list of files
(path to content), a list of existing directories, and per-path fault
tables that let any primitive I/O step fail with a given error message,
mirroring the fallibility of the underlying OS calls.  The serde and toml
collaborators are black boxes, modelled as the parse, serialize and
prepare fields of a ConfigData record; errors are their display strings.
-/

namespace Tomlconf

/-- A filesystem path, as its list of components. -/
structure FsPath where
  components : List String
deriving DecidableEq

namespace FsPath

/-- Embeds Rust Path.file_name: the last component, if any. -/
def fileName (p : FsPath) : Option String := p.components.getLast?

/-- Embeds Rust Path.parent: drop the last component; none for the empty path. -/
def parentDir (p : FsPath) : Option FsPath :=
  if p.components = [] then none else some ⟨p.components.dropLast⟩

/-- Embeds Rust Path.with_file_name: replace the final component (or append
when there is none). -/
def withFileName (p : FsPath) (n : String) : FsPath :=
  ⟨(match p.fileName with
    | some _ => p.components.dropLast
    | none => p.components) ++ [n]⟩

/-- Embeds PathBuf.push for a single component. -/
def push (p : FsPath) (n : String) : FsPath := ⟨p.components ++ [n]⟩

/-- Embeds Path.display, used in the user-facing messages of setup. -/
def display (p : FsPath) : String := String.intercalate "/" p.components

end FsPath

/-- Association-list lookup for file tables keyed by path. -/
def fsLookup : List (FsPath × String) → FsPath → Option String
  | [], _ => none
  | e :: rest, p => if e.1 = p then some e.2 else fsLookup rest p

/-- Remove every entry for a path from a file table. -/
def fsRemove : List (FsPath × String) → FsPath → List (FsPath × String)
  | [], _ => []
  | e :: rest, p => if e.1 = p then fsRemove rest p else e :: fsRemove rest p

/-- Insert (overwrite) the entry for a path in a file table. -/
def fsInsert (l : List (FsPath × String)) (p : FsPath) (s : String) :
    List (FsPath × String) :=
  (p, s) :: fsRemove l p

/-- The world state: the resolver for ProjectDirs (an external collaborator,
a black box from the three naming tokens to a config directory), the files
and directories present, and fault-injection tables giving each primitive
I/O operation an optional failure at a given path. -/
structure World where
  resolve : String → String → String → Option FsPath
  files : List (FsPath × String)
  dirs : List FsPath
  openFail : List (FsPath × String)
  seekFail : List (FsPath × String)
  rewindFail : List (FsPath × String)
  readFail : List (FsPath × String)
  renameFail : List (FsPath × String)
  mkdirFail : List (FsPath × String)
  createFail : List (FsPath × String)
  writeFail : List (FsPath × String)

/-- Embeds Rust Path.exists: a file or a directory is present at the path. -/
def pathExists (w : World) (p : FsPath) : Bool :=
  (fsLookup w.files p).isSome || w.dirs.contains p

/-- The message of the io::Error produced by opening a missing file. -/
def enoent : String := "No such file or directory"

/-- Embeds std::fs::rename: moves the file at src to dst, or fails with the
injected fault (or with enoent when no file is at src). -/
def renameFs (w : World) (src dst : FsPath) : Except String Unit × World :=
  match fsLookup w.renameFail src with
  | some e => (.error e, w)
  | none =>
    match fsLookup w.files src with
    | none => (.error enoent, w)
    | some content =>
      (.ok (), { w with files := fsInsert (fsRemove w.files src) dst content })

/-- Every prefix of the path, longest last: the directories that
create_dir_all brings into existence. -/
def prefixesOf (p : FsPath) : List FsPath :=
  (List.range (p.components.length + 1)).map (fun n => ⟨p.components.take n⟩)

/-- Embeds std::fs::create_dir_all: creates the directory and all its
intermediate ancestors, or fails with the injected fault. -/
def createDirAll (w : World) (dir : FsPath) : Except String Unit × World :=
  match fsLookup w.mkdirFail dir with
  | some e => (.error e, w)
  | none => (.ok (), { w with dirs := prefixesOf dir ++ w.dirs })

/-- Embeds File::create: creates or truncates the file, or fails with the
injected fault. -/
def fileCreate (w : World) (path : FsPath) : Except String Unit × World :=
  match fsLookup w.createFail path with
  | some e => (.error e, w)
  | none => (.ok (), { w with files := fsInsert w.files path "" })

/-- Embeds File.write_all of a whole buffer: sets the file contents, or
fails with the injected fault. -/
def writeAll (w : World) (path : FsPath) (text : String) :
    Except String Unit × World :=
  match fsLookup w.writeFail path with
  | some e => (.error e, w)
  | none => (.ok (), { w with files := fsInsert w.files path text })

/-- Embeds File::open for reading: fails with enoent when the file is
missing, else with the injected fault if any. -/
def fileOpenR (w : World) (path : FsPath) : Except String Unit :=
  match fsLookup w.files path with
  | none => .error enoent
  | some _ =>
    match fsLookup w.openFail path with
    | some e => .error e
    | none => .ok ()

/-- Embeds file.seek(SeekFrom::End(0)): yields the length, or the injected
fault. -/
def seekEndR (w : World) (path : FsPath) : Except String Nat :=
  match fsLookup w.seekFail path with
  | some e => .error e
  | none =>
    match fsLookup w.files path with
    | none => .error enoent
    | some content => .ok content.length

/-- Embeds file.rewind: succeeds unless a fault is injected. -/
def rewindR (w : World) (path : FsPath) : Except String Unit :=
  match fsLookup w.rewindFail path with
  | some e => .error e
  | none => .ok ()

/-- Embeds file.read_to_string: yields the whole contents, or the injected
fault. -/
def readR (w : World) (path : FsPath) : Except String String :=
  match fsLookup w.readFail path with
  | some e => .error e
  | none =>
    match fsLookup w.files path with
    | none => .error enoent
    | some content => .ok content

/-- Embeds find_path: ProjectDirs::from then config_dir, pushing the
filename. -/
def find_path (w : World) (qualifier organization application filename : String) :
    Option FsPath :=
  match w.resolve qualifier organization application with
  | none => none
  | some dir => some (dir.push filename)

/-- Embeds get_backup: prefix the filename with ".bkp.", preserving the
directory; none when the path has no filename. -/
def get_backup (p : FsPath) : Option FsPath :=
  match p.fileName with
  | none => none
  | some name => some (p.withFileName (".bkp." ++ name))

/-- Embeds the enum ConfigOpen from src/config.rs; error payloads are the
display strings of the underlying io and toml errors. -/
inductive ConfigOpen (Cfg : Type) where
  | FileInaccessible (e : String)
  | FileInvalid (e : String)
  | FileValid (config : Cfg)
deriving DecidableEq

/-- Embeds the enum ConfigFind from src/config.rs. -/
inductive ConfigFind (Cfg : Type) where
  | DoesNotExist (path : FsPath)
  | Exists (path : FsPath) (result : ConfigOpen Cfg)
  | NoPath
deriving DecidableEq

/-- Embeds the enum ConfigSaveError from src/config.rs. -/
inductive ConfigSaveError where
  | FileInaccessible (e : String)
  | SerializeFailure (e : String)
deriving DecidableEq

/-- Embeds the struct ConfigFile: a configuration paired with the path it
is bound to. -/
structure ConfigFile (Cfg : Type) where
  data : Cfg
  path : FsPath
deriving DecidableEq

/-- Embeds the ConfigData trait: the compile-time DEFAULT text, the toml
parse and serialize collaborators, and the overridable prepare hook
(identity by default). -/
structure ConfigData (Cfg : Type) where
  DEFAULT : String
  parse : String → Except String Cfg
  serialize : Cfg → Except String String
  prepare : Cfg → Cfg

variable {Cfg : Type}

/-- Embeds ConfigData::open (open is a reserved word in Lean): the nested
open, seek-to-end, rewind, read pipeline, each step short-circuiting to
FileInaccessible, then parse (FileInvalid on failure) and prepare. -/
def openCfg (cd : ConfigData Cfg) (w : World) (path : FsPath) : ConfigOpen Cfg :=
  match fileOpenR w path with
  | .error e => .FileInaccessible e
  | .ok _ =>
    match seekEndR w path with
    | .error e => .FileInaccessible e
    | .ok _len =>
      match rewindR w path with
      | .error e => .FileInaccessible e
      | .ok _ =>
        match readR w path with
        | .error e => .FileInaccessible e
        | .ok data =>
          match cd.parse data with
          | .error e => .FileInvalid e
          | .ok config => .FileValid (cd.prepare config)

/-- Embeds ConfigData::find: resolve the path, classify by existence, and
open when a file is present. -/
def find (cd : ConfigData Cfg) (w : World)
    (qualifier organization application file : String) : ConfigFind Cfg :=
  match find_path w qualifier organization application file with
  | none => .NoPath
  | some path =>
    if pathExists w path = false then .DoesNotExist path
    else .Exists path (openCfg cd w path)

/-- The backup move of create and save step 1: rename the current file to
its backup path, ignoring a rename failure (.ok() in the source). -/
def backupStep (w : World) (path : FsPath) : World :=
  match get_backup path with
  | some backup => (renameFs w path backup).2
  | none => w

/-- The parent-creation of create and save step 2: create the missing
parent directory, propagating the io error. -/
def parentStep (w : World) (path : FsPath) : Except String World :=
  match path.parentDir with
  | some parent =>
    if pathExists w parent then .ok w
    else
      match createDirAll w parent with
      | (.error e, _) => .error e
      | (.ok _, w') => .ok w'
  | none => .ok w

/-- The shared backup-or-parent policy at the head of both ConfigData::create
and ConfigFile::save: backup when requested and a file exists, else parent
creation when requested, else nothing. -/
def backupOrParent (w : World) (path : FsPath)
    (create_backup create_parent : Bool) : Except String World :=
  if create_backup && pathExists w path then .ok (backupStep w path)
  else if create_parent then parentStep w path
  else .ok w

/-- The final write of ConfigData::create: File::create then write_all of
the DEFAULT text. -/
def writeDefault (cd : ConfigData Cfg) (w : World) (path : FsPath) :
    Except String Unit × World :=
  match fileCreate w path with
  | (.error e, w') => (.error e, w')
  | (.ok _, w') => writeAll w' path cd.DEFAULT

/-- Embeds ConfigData::create: the backup-or-parent policy, then the
default text written to the path. -/
def create (cd : ConfigData Cfg) (w : World) (path : FsPath)
    (create_backup create_parent : Bool) : Except String Unit × World :=
  match backupOrParent w path create_backup create_parent with
  | .error e => (.error e, w)
  | .ok w' => writeDefault cd w' path

/-- Embeds ConfigData::with_path. -/
def with_path (data : Cfg) (path : FsPath) : ConfigFile Cfg := ⟨data, path⟩

/-- The shared branch body of setup on DoesNotExist (and of the replacing
variant on FileInvalid): create the default file, then re-open it. -/
def createAndOpen (cd : ConfigData Cfg) (w : World) (path : FsPath) :
    Except String (String × ConfigFile Cfg) × World :=
  match create cd w path true true with
  | (.error e, w') =>
    (.error ("Cannot save " ++ path.display ++ " as Config file: " ++ e), w')
  | (.ok _, w') =>
    match openCfg cd w' path with
    | .FileInaccessible e =>
      (.error ("Cannot access " ++ path.display ++ " as Config file: " ++ e), w')
    | .FileInvalid e =>
      (.error ("Cannot read " ++ path.display ++ " as Config file: " ++ e), w')
    | .FileValid cfg =>
      (.ok ("Created new Config file: " ++ path.display, with_path cfg path), w')

/-- Embeds ConfigData::setup: the orchestration state machine over the
result of find. -/
def setup (cd : ConfigData Cfg) (w : World)
    (qualifier organization application file : String) :
    Except String (String × ConfigFile Cfg) × World :=
  match find cd w qualifier organization application file with
  | .DoesNotExist path => createAndOpen cd w path
  | .Exists path cfg =>
    match cfg with
    | .FileInaccessible e =>
      (.error ("Cannot access " ++ path.display ++ " as Config file: " ++ e), w)
    | .FileInvalid e =>
      (.error ("Cannot read " ++ path.display ++ " as Config file: " ++ e), w)
    | .FileValid config =>
      (.ok ("Using existing Config file: " ++ path.display,
        with_path config path), w)
  | .NoPath => (.error "Cannot find path for Config file.", w)

/-- Embeds ConfigData::setup_replace_invalid.  The unreachable!() panic in
its FileInvalid arm is modelled as the result none; every ordinary return
is some. -/
def setup_replace_invalid (cd : ConfigData Cfg) (w : World)
    (qualifier organization application file : String) :
    Option (Except String (String × ConfigFile Cfg)) × World :=
  match find cd w qualifier organization application file with
  | .Exists path (.FileInvalid _) | .DoesNotExist path =>
    match createAndOpen cd w path with
    | (r, w') => (some r, w')
  | .Exists path cfg =>
    match cfg with
    | .FileInaccessible e =>
      (some (.error ("Cannot access " ++ path.display ++ " as Config file: " ++ e)), w)
    | .FileInvalid _ => (none, w)
    | .FileValid config =>
      (some (.ok ("Using existing Config file: " ++ path.display,
        with_path config path)), w)
  | .NoPath => (some (.error "Cannot find path for Config file."), w)

/-- Embeds ConfigFile::reload: re-open the bound path; replace the data
only on FileValid, otherwise return the outcome as the error. -/
def reload (cd : ConfigData Cfg) (w : World) (cf : ConfigFile Cfg) :
    Except (ConfigOpen Cfg) Unit × ConfigFile Cfg :=
  match openCfg cd w cf.path with
  | .FileValid new => (.ok (), { cf with data := new })
  | err => (.error err, cf)

/-- Embeds ConfigFile::save: the shared backup-or-parent policy against the
bound path, then serialize (SerializeFailure on failure), then
File::create and write_all of the serialized text (FileInaccessible on an
io failure). -/
def save (cd : ConfigData Cfg) (w : World) (cf : ConfigFile Cfg)
    (create_backup create_parent : Bool) :
    Except ConfigSaveError Unit × World :=
  match backupOrParent w cf.path create_backup create_parent with
  | .error e => (.error (.FileInaccessible e), w)
  | .ok w1 =>
    match cd.serialize cf.data with
    | .error e => (.error (.SerializeFailure e), w1)
    | .ok serial =>
      match fileCreate w1 cf.path with
      | (.error e, w2) => (.error (.FileInaccessible e), w2)
      | (.ok _, w2) =>
        match writeAll w2 cf.path serial with
        | (.error e, w3) => (.error (.FileInaccessible e), w3)
        | (.ok _, w3) => (.ok (), w3)

/-- The io stage of openCfg as one sequential fallible pipeline: open, seek
to end, rewind, read, short-circuiting on the first failure. -/
def readPipeline (w : World) (path : FsPath) : Except String String :=
  match fileOpenR w path with
  | .error e => .error e
  | .ok _ =>
    match seekEndR w path with
    | .error e => .error e
    | .ok _ =>
      match rewindR w path with
      | .error e => .error e
      | .ok _ => readR w path

/-- An operation performed through a ConfigFile handle. -/
inductive HandleOp where
  | reloadOp
  | saveOp (create_backup create_parent : Bool)

/-- Run a sequence of handle operations, threading the world and the
handle exactly as the Rust borrow structure does: reload mutates the
handle, save mutates the world. -/
def runOps (cd : ConfigData Cfg) :
    List HandleOp → World → ConfigFile Cfg → World × ConfigFile Cfg
  | [], w, cf => (w, cf)
  | HandleOp.reloadOp :: rest, w, cf => runOps cd rest w (reload cd w cf).2
  | HandleOp.saveOp b p :: rest, w, cf => runOps cd rest (save cd w cf b p).2 cf

/-- Sample path: the resolved config directory. -/
def pHome : FsPath := ⟨["home"]⟩

/-- Sample path: the resolved config file. -/
def pCfg : FsPath := ⟨["home", "cfg.toml"]⟩

/-- Sample codec over String: parsing rejects the text "bad", everything
else round-trips unchanged. -/
def cdId : ConfigData String :=
  { DEFAULT := "output = 1"
    parse := fun s => if s = "bad" then .error "expected table" else .ok s
    serialize := fun s => .ok s
    prepare := id }

/-- Sample codec over String whose parse and serialize are mutually
inverse everywhere. -/
def cdInv : ConfigData String :=
  { DEFAULT := "output = 1"
    parse := fun s => .ok s
    serialize := fun s => .ok s
    prepare := id }

/-- Sample world with no resolvable project directory. -/
def emptyWorld : World :=
  { resolve := fun _ _ _ => none
    files := []
    dirs := []
    openFail := []
    seekFail := []
    rewindFail := []
    readFail := []
    renameFail := []
    mkdirFail := []
    createFail := []
    writeFail := [] }

/-- Sample world resolving to the home directory, no config file yet. -/
def wHome : World :=
  { emptyWorld with
    resolve := fun _ _ _ => some pHome
    dirs := [⟨[]⟩, pHome] }

/-- Sample world whose config file holds unparsable content. -/
def wBad : World :=
  { wHome with files := [(pCfg, "bad")] }

/-- Sample world whose config file holds valid content. -/
def wGood : World :=
  { wHome with files := [(pCfg, "output = 2")] }

/-- Sample handle bound to the sample config path. -/
def cfSample : ConfigFile String := ⟨"output = 2", pCfg⟩

/-- Looking up the freshly inserted path yields the inserted content. -/
lemma fsLookup_fsInsert_self (l : List (FsPath × String)) (p : FsPath) (s : String) :
    fsLookup (fsInsert l p s) p = some s := by
  simp [fsInsert, fsLookup]

/-- Removal does not disturb lookups at other paths. -/
lemma fsLookup_fsRemove_ne (l : List (FsPath × String)) (p q : FsPath)
    (h : q ≠ p) : fsLookup (fsRemove l p) q = fsLookup l q := by
  induction l with
  | nil => rfl
  | cons a rest ih =>
    by_cases ha : a.1 = p
    · have hq : a.1 ≠ q := by rw [ha]; exact h.symm
      simp [fsRemove, fsLookup, ha, hq, ih, h.symm]
    · by_cases haq : a.1 = q
      · simp [fsRemove, fsLookup, ha, haq, h]
      · simp [fsRemove, fsLookup, ha, haq, ih, h]

/-- Insertion does not disturb lookups at other paths. -/
lemma fsLookup_fsInsert_ne (l : List (FsPath × String)) (p q : FsPath) (s : String)
    (h : q ≠ p) : fsLookup (fsInsert l p s) q = fsLookup l q := by
  have hp : p ≠ q := h.symm
  simp [fsInsert, fsLookup, hp]
  exact fsLookup_fsRemove_ne l p q h

/-- Claim C2: openCfg is exactly the sequential io pipeline (open, seek,
rewind, read, short-circuiting into FileInaccessible on the first failure)
followed by parse (FileInvalid on failure) and a single application of the
prepare hook; and on a nonexistent path it always yields FileInaccessible. -/
theorem C2_open_pipeline (cd : ConfigData Cfg) (w : World) (path : FsPath) :
    (openCfg cd w path =
      match readPipeline w path with
      | .error e => .FileInaccessible e
      | .ok data =>
        match cd.parse data with
        | .error e => .FileInvalid e
        | .ok config => .FileValid (cd.prepare config))
    ∧ (fsLookup w.files path = none →
        openCfg cd w path = .FileInaccessible enoent) := by
  constructor
  · unfold openCfg readPipeline
    cases fileOpenR w path
    · rfl
    · cases seekEndR w path
      · rfl
      · cases rewindR w path
        · rfl
        · cases readR w path
          · rfl
          · rfl
  · intro h
    unfold openCfg fileOpenR
    rw [h]

/-- Claim C2 witness: opening the sample path in the empty world yields
FileInaccessible with the file-not-found error. -/
theorem C2_witness :
    openCfg cdId emptyWorld pCfg = ConfigOpen.FileInaccessible enoent :=
  (C2_open_pipeline cdId emptyWorld pCfg).2 rfl

/-- Claim C6: reload re-runs openCfg against the bound path; FileValid
replaces the owned record and returns success, any other outcome is
returned as the error with the handle (record and path) unchanged. -/
theorem C6_reload (cd : ConfigData Cfg) (w : World) (cf : ConfigFile Cfg) :
    (∀ new, openCfg cd w cf.path = .FileValid new →
      reload cd w cf = (.ok (), { cf with data := new }))
    ∧ (∀ e, openCfg cd w cf.path = .FileInaccessible e →
      reload cd w cf = (.error (.FileInaccessible e), cf))
    ∧ (∀ e, openCfg cd w cf.path = .FileInvalid e →
      reload cd w cf = (.error (.FileInvalid e), cf)) := by
  refine ⟨?_, ?_, ?_⟩ <;> intro x h <;> unfold reload <;> rw [h]

/-- Claim C6 witness: a failed reload in the empty world returns the
outcome as the error and keeps the sample handle unchanged. -/
theorem C6_witness :
    reload cdId emptyWorld cfSample =
      (.error (.FileInaccessible enoent), cfSample) :=
  (C6_reload cdId emptyWorld cfSample).2.1 enoent rfl

/-- Characterization of get_backup on a path with a filename. -/
lemma get_backup_eq_some (p : FsPath) (n : String) (h : p.fileName = some n) :
    get_backup p = some ⟨p.components.dropLast ++ [".bkp." ++ n]⟩ := by
  unfold get_backup FsPath.withFileName
  rw [h]

/-- A path with a filename has a nonempty component list. -/
lemma components_ne_nil_of_fileName (p : FsPath) (n : String)
    (h : p.fileName = some n) : p.components ≠ [] := by
  intro hc
  unfold FsPath.fileName at h
  rw [hc] at h
  simp at h

/-- String concatenation cancels on the left. -/
lemma string_append_cancel (a b c : String) (h : a ++ b = a ++ c) : b = c := by
  have hd := congrArg String.data h
  simp [String.data_append] at hd
  exact String.ext hd

/-- Claim C8: get_backup returns none exactly when the path has no
filename; it is deterministic; it preserves the parent directory while
prefixing the filename with the fixed marker ".bkp."; and it is injective
on paths that have filenames. -/
theorem C8_backup_path (p q : FsPath) :
    (get_backup p = none ↔ p.fileName = none)
    ∧ (p = q → get_backup p = get_backup q)
    ∧ (∀ b, get_backup p = some b →
        b.parentDir = p.parentDir
        ∧ ∃ n, p.fileName = some n ∧ b.fileName = some (".bkp." ++ n))
    ∧ (p ≠ q → p.fileName.isSome = true → q.fileName.isSome = true →
        get_backup p ≠ get_backup q) := by
  refine ⟨?_, ?_, ?_, ?_⟩
  · cases h : p.fileName with
    | none => simp [get_backup, h]
    | some n => simp [get_backup, h]
  · intro h; rw [h]
  · intro b hb
    cases h : p.fileName with
    | none => simp [get_backup, h] at hb
    | some n =>
      rw [get_backup_eq_some p n h] at hb
      injection hb with hb
      refine ⟨?_, n, rfl, ?_⟩
      · rw [← hb]
        have hp : p.components ≠ [] := components_ne_nil_of_fileName p n h
        simp [FsPath.parentDir, hp, List.dropLast_concat]
      · rw [← hb]
        simp [FsPath.fileName, List.getLast?_concat]
  · intro hne hp hq hcontra
    obtain ⟨n, hn⟩ := Option.isSome_iff_exists.mp hp
    obtain ⟨m, hm⟩ := Option.isSome_iff_exists.mp hq
    rw [get_backup_eq_some p n hn, get_backup_eq_some q m hm] at hcontra
    injection hcontra with hc
    have hlist : p.components.dropLast ++ [".bkp." ++ n]
        = q.components.dropLast ++ [".bkp." ++ m] := congrArg FsPath.components hc
    have hlast := congrArg List.getLast? hlist
    rw [List.getLast?_concat, List.getLast?_concat] at hlast
    injection hlast with hlast
    have hnm : n = m := string_append_cancel ".bkp." n m hlast
    have hdrop := congrArg List.dropLast hlist
    rw [List.dropLast_concat, List.dropLast_concat] at hdrop
    have hn' : p.components.getLast? = some n := hn
    have hm' : q.components.getLast? = some m := hm
    have h1 : p.components.dropLast ++ [n] = p.components :=
      List.dropLast_append_getLast? n hn'
    have h2 : q.components.dropLast ++ [m] = q.components :=
      List.dropLast_append_getLast? m hm'
    have hpc : p.components = q.components := by
      rw [← h1, ← h2, hdrop, hnm]
    apply hne
    cases p
    cases q
    simp only at hpc
    rw [hpc]

/-- Claim C8 witness: two distinct sibling filenames give distinct backup
paths. -/
theorem C8_witness :
    get_backup ⟨["home", "a.toml"]⟩ ≠ get_backup ⟨["home", "b.toml"]⟩ :=
  (C8_backup_path ⟨["home", "a.toml"]⟩ ⟨["home", "b.toml"]⟩).2.2.2
    (by decide) rfl rfl

/-- When writeDefault succeeds, the file holds exactly the DEFAULT text. -/
lemma writeDefault_content (cd : ConfigData Cfg) (w : World) (path : FsPath)
    (w' : World) (h : writeDefault cd w path = (.ok (), w')) :
    fsLookup w'.files path = some cd.DEFAULT := by
  unfold writeDefault fileCreate writeAll at h
  cases hc : fsLookup w.createFail path with
  | some e => simp [hc] at h
  | none =>
    simp only [hc] at h
    cases hw : fsLookup w.writeFail path with
    | some e => simp [hw] at h
    | none =>
      simp only [hw, Prod.mk.injEq, true_and] at h
      rw [← h]
      simp [fsLookup_fsInsert_self]

/-- When save succeeds, the file at the bound path holds exactly the
serialized record. -/
lemma save_ok_content (cd : ConfigData Cfg) (w : World) (cf : ConfigFile Cfg)
    (cb cp : Bool) (w' : World) (h : save cd w cf cb cp = (.ok (), w')) :
    ∃ s, cd.serialize cf.data = .ok s ∧ fsLookup w'.files cf.path = some s := by
  unfold save at h
  cases hbp : backupOrParent w cf.path cb cp with
  | error e => simp [hbp] at h
  | ok w1 =>
    simp only [hbp] at h
    cases hs : cd.serialize cf.data with
    | error e => simp [hs] at h
    | ok s =>
      simp only [hs] at h
      refine ⟨s, rfl, ?_⟩
      unfold fileCreate writeAll at h
      cases hc : fsLookup w1.createFail cf.path with
      | some e => simp [hc] at h
      | none =>
        simp only [hc] at h
        cases hw : fsLookup w1.writeFail cf.path with
        | some e => simp [hw] at h
        | none =>
          simp only [hw, Prod.mk.injEq, true_and] at h
          rw [← h]
          simp [fsLookup_fsInsert_self]

/-- What openCfg can do on a path whose file holds content s: either an
injected io fault makes it FileInaccessible, or the parse of s decides
between FileInvalid and FileValid with the prepare hook applied. -/
lemma openCfg_content (cd : ConfigData Cfg) (w : World) (path : FsPath)
    (s : String) (h : fsLookup w.files path = some s) :
    (∃ e, openCfg cd w path = .FileInaccessible e)
    ∨ (∃ e, cd.parse s = .error e ∧ openCfg cd w path = .FileInvalid e)
    ∨ (∃ c, cd.parse s = .ok c ∧ openCfg cd w path = .FileValid (cd.prepare c)) := by
  unfold openCfg fileOpenR seekEndR rewindR readR
  rw [h]
  cases ho : fsLookup w.openFail path with
  | some e => exact Or.inl ⟨e, by simp [ho]⟩
  | none =>
    cases hsk : fsLookup w.seekFail path with
    | some e => exact Or.inl ⟨e, by simp [ho, hsk]⟩
    | none =>
      cases hrw : fsLookup w.rewindFail path with
      | some e => exact Or.inl ⟨e, by simp [ho, hsk, hrw]⟩
      | none =>
        cases hrd : fsLookup w.readFail path with
        | some e => exact Or.inl ⟨e, by simp [ho, hsk, hrw, hrd]⟩
        | none =>
          cases hp : cd.parse s with
          | error e =>
            exact Or.inr (Or.inl ⟨e, rfl, by simp [ho, hsk, hrw, hrd, hp]⟩)
          | ok c =>
            exact Or.inr (Or.inr ⟨c, rfl, by simp [ho, hsk, hrw, hrd, hp]⟩)

/-- Claim C3: create takes the best-effort backup branch when
create_backup is set and the path exists (a rename failure changing
nothing), else the parent-creation branch when create_parent is set
(propagating the io error), else neither; the two branches are mutually
exclusive with backup first; and a successful call leaves the DEFAULT
text verbatim at the path. -/
theorem C3_create_branches (cd : ConfigData Cfg) (w : World) (path : FsPath)
    (cb cp : Bool) :
    (cb = true → pathExists w path = true →
      create cd w path cb cp = writeDefault cd (backupStep w path) path)
    ∧ (∀ b e, get_backup path = some b → (renameFs w path b).1 = .error e →
      backupStep w path = w)
    ∧ ((cb && pathExists w path) = false → cp = true →
      (∀ e, parentStep w path = .error e → create cd w path cb cp = (.error e, w))
      ∧ (∀ w', parentStep w path = .ok w' →
          create cd w path cb cp = writeDefault cd w' path))
    ∧ ((cb && pathExists w path) = false → cp = false →
      create cd w path cb cp = writeDefault cd w path)
    ∧ (∀ w', create cd w path cb cp = (.ok (), w') →
      fsLookup w'.files path = some cd.DEFAULT) := by
  refine ⟨?_, ?_, ?_, ?_, ?_⟩
  · intro h1 h2
    simp [create, backupOrParent, h1, h2]
  · intro b e hb he
    unfold backupStep
    rw [hb]
    unfold renameFs at he ⊢
    cases hr : fsLookup w.renameFail path with
    | some e2 => simp [hr]
    | none =>
      simp only [hr] at he ⊢
      cases hf : fsLookup w.files path with
      | none => simp [hf]
      | some c => simp [hf] at he
  · intro h1 h2
    constructor
    · intro e he
      simp [create, backupOrParent, h1, h2, he]
    · intro w' hw
      simp [create, backupOrParent, h1, h2, hw]
  · intro h1 h2
    simp [create, backupOrParent, h1, h2]
  · intro w' hsucc
    unfold create at hsucc
    cases hbp : backupOrParent w path cb cp with
    | error e => simp [hbp] at hsucc
    | ok w1 =>
      simp only [hbp] at hsucc
      exact writeDefault_content cd w1 path w' hsucc

/-- Claim C3 witness: with create_backup set and a file present, create
runs the backup branch and then writes the default file. -/
theorem C3_witness :
    create cdId wGood pCfg true false
      = writeDefault cdId (backupStep wGood pCfg) pCfg :=
  (C3_create_branches cdId wGood pCfg true false).1 rfl rfl

/-- Claim C5: save applies the shared backup-or-parent policy against the
bound path (backup best-effort, directory-creation failure surfaced as
FileInaccessible), then serializes (failure as SerializeFailure), then
writes (io failure as FileInaccessible); on success the file at the bound
path holds exactly the serialized record. -/
theorem C5_save (cd : ConfigData Cfg) (w : World) (cf : ConfigFile Cfg)
    (cb cp : Bool) :
    (cb = true → pathExists w cf.path = true →
      backupOrParent w cf.path cb cp = .ok (backupStep w cf.path))
    ∧ (∀ e, backupOrParent w cf.path cb cp = .error e →
      save cd w cf cb cp = (.error (.FileInaccessible e), w))
    ∧ ((cb && pathExists w cf.path) = false → cp = true →
      backupOrParent w cf.path cb cp = parentStep w cf.path)
    ∧ (∀ w1 e, backupOrParent w cf.path cb cp = .ok w1 →
        cd.serialize cf.data = .error e →
        save cd w cf cb cp = (.error (.SerializeFailure e), w1))
    ∧ (∀ w1 s, backupOrParent w cf.path cb cp = .ok w1 →
        cd.serialize cf.data = .ok s →
        (∀ e w2, fileCreate w1 cf.path = (.error e, w2) →
          save cd w cf cb cp = (.error (.FileInaccessible e), w2))
        ∧ (∀ w2 e w3, fileCreate w1 cf.path = (.ok (), w2) →
            writeAll w2 cf.path s = (.error e, w3) →
            save cd w cf cb cp = (.error (.FileInaccessible e), w3)))
    ∧ (∀ w' s, save cd w cf cb cp = (.ok (), w') → cd.serialize cf.data = .ok s →
      fsLookup w'.files cf.path = some s) := by
  refine ⟨?_, ?_, ?_, ?_, ?_, ?_⟩
  · intro h1 h2
    simp [backupOrParent, h1, h2]
  · intro e he
    simp [save, he]
  · intro h1 h2
    simp [backupOrParent, h1, h2]
  · intro w1 e hbp hs
    simp [save, hbp, hs]
  · intro w1 s hbp hs
    constructor
    · intro e w2 hfc
      simp [save, hbp, hs, hfc]
    · intro w2 e w3 hfc hwa
      simp [save, hbp, hs, hfc, hwa]
  · intro w' s hsucc hs
    obtain ⟨s2, hs2, hcontent⟩ := save_ok_content cd w cf cb cp w' hsucc
    rw [hs] at hs2
    injection hs2 with hs2
    rw [hs2]
    exact hcontent

/-- Claim C5 witness: a successful save in the sample world leaves the
serialized record at the bound path. -/
theorem C5_witness :
    fsLookup ((save cdInv wHome cfSample false false).2).files pCfg
      = some "output = 2" :=
  (C5_save cdInv wHome cfSample false false).2.2.2.2.2
    ((save cdInv wHome cfSample false false).2) "output = 2" rfl rfl

/-- Claim C7: for a codec whose encode and decode are mutually inverse and
whose prepare hook is the identity, a successful save followed by reload
on the same handle leaves the owned record equal to the one saved. -/
theorem C7_round_trip (cd : ConfigData Cfg)
    (hinv : ∀ c s, cd.serialize c = .ok s → cd.parse s = .ok c)
    (hprep : ∀ c, cd.prepare c = c)
    (w : World) (cf : ConfigFile Cfg) (cb cp : Bool) (w' : World)
    (hsave : save cd w cf cb cp = (.ok (), w')) :
    ((reload cd w' cf).2).data = cf.data := by
  obtain ⟨s, hs, hcontent⟩ := save_ok_content cd w cf cb cp w' hsave
  rcases openCfg_content cd w' cf.path s hcontent with
    ⟨e, he⟩ | ⟨e, hpe, he⟩ | ⟨c, hpc, he⟩
  · simp [reload, he]
  · simp [reload, he]
  · have hc : c = cf.data := by
      rw [hinv cf.data s hs] at hpc
      injection hpc with hpc
      exact hpc.symm
    subst hc
    simp [reload, he, hprep]

/-- Claim C7 witness: saving the sample record and reloading it yields the
original record back. -/
theorem C7_witness :
    ((reload cdInv ((save cdInv wHome cfSample false false).2) cfSample).2).data
      = "output = 2" :=
  C7_round_trip cdInv
    (fun c s h => by injection h with h1; rw [h1]; rfl)
    (fun _ => rfl)
    wHome cfSample false false ((save cdInv wHome cfSample false false).2) rfl

/-- Claim C1: setup follows the locate-result state machine: NoPath gives
the fixed error message; DoesNotExist writes the default via create and
re-opens, surfacing a failure at either step as an error naming the path
and cause and on success returning a Created-new message with a handle
bound to the path; an existing valid file gives a Using-existing message
with a handle bound to the path wrapping the record; an inaccessible or
invalid existing file gives an error with the path and cause.  Every
failure case is an error string, never a handle. -/
theorem C1_setup_machine (cd : ConfigData Cfg) (w : World)
    (q o a f : String) :
    (find cd w q o a f = .NoPath →
      setup cd w q o a f = (.error "Cannot find path for Config file.", w))
    ∧ (∀ path, find cd w q o a f = .DoesNotExist path →
        (∀ e w', create cd w path true true = (.error e, w') →
          setup cd w q o a f =
            (.error ("Cannot save " ++ path.display ++ " as Config file: " ++ e),
              w'))
        ∧ (∀ w', create cd w path true true = (.ok (), w') →
            (∀ e, openCfg cd w' path = .FileInaccessible e →
              setup cd w q o a f =
                (.error ("Cannot access " ++ path.display
                  ++ " as Config file: " ++ e), w'))
            ∧ (∀ e, openCfg cd w' path = .FileInvalid e →
              setup cd w q o a f =
                (.error ("Cannot read " ++ path.display
                  ++ " as Config file: " ++ e), w'))
            ∧ (∀ cfg, openCfg cd w' path = .FileValid cfg →
              setup cd w q o a f =
                (.ok ("Created new Config file: " ++ path.display,
                  with_path cfg path), w'))))
    ∧ (∀ path r, find cd w q o a f = .Exists path (.FileValid r) →
        setup cd w q o a f =
          (.ok ("Using existing Config file: " ++ path.display,
            with_path r path), w))
    ∧ (∀ path e, find cd w q o a f = .Exists path (.FileInaccessible e) →
        setup cd w q o a f =
          (.error ("Cannot access " ++ path.display ++ " as Config file: " ++ e),
            w))
    ∧ (∀ path e, find cd w q o a f = .Exists path (.FileInvalid e) →
        setup cd w q o a f =
          (.error ("Cannot read " ++ path.display ++ " as Config file: " ++ e),
            w)) := by
  refine ⟨?_, ?_, ?_, ?_, ?_⟩
  · intro h
    simp [setup, h]
  · intro path h
    constructor
    · intro e w' hc
      simp [setup, h, createAndOpen, hc]
    · intro w' hc
      refine ⟨?_, ?_, ?_⟩ <;> intro x hx <;> simp [setup, h, createAndOpen, hc, hx]
  · intro path r h
    simp [setup, h]
  · intro path e h
    simp [setup, h]
  · intro path e h
    simp [setup, h]

/-- Claim C1 witness: with no resolvable path, setup returns the fixed
error message. -/
theorem C1_witness :
    setup cdId emptyWorld "q" "o" "app" "cfg.toml"
      = (.error "Cannot find path for Config file.", emptyWorld) :=
  (C1_setup_machine cdId emptyWorld "q" "o" "app" "cfg.toml").1 rfl

/-- Claim C4: setup_replace_invalid returns exactly what setup returns on
every locate outcome except Exists-with-FileInvalid, where it instead runs
the same create-and-reopen branch that setup runs on DoesNotExist. -/
theorem C4_replace_invalid (cd : ConfigData Cfg) (w : World)
    (q o a f : String) :
    (find cd w q o a f = .NoPath →
      setup_replace_invalid cd w q o a f
        = (some (setup cd w q o a f).1, (setup cd w q o a f).2))
    ∧ (∀ path, find cd w q o a f = .DoesNotExist path →
        setup_replace_invalid cd w q o a f
          = (some (setup cd w q o a f).1, (setup cd w q o a f).2))
    ∧ (∀ path e, find cd w q o a f = .Exists path (.FileInaccessible e) →
        setup_replace_invalid cd w q o a f
          = (some (setup cd w q o a f).1, (setup cd w q o a f).2))
    ∧ (∀ path r, find cd w q o a f = .Exists path (.FileValid r) →
        setup_replace_invalid cd w q o a f
          = (some (setup cd w q o a f).1, (setup cd w q o a f).2))
    ∧ (∀ path e, find cd w q o a f = .Exists path (.FileInvalid e) →
        setup_replace_invalid cd w q o a f
          = (some (createAndOpen cd w path).1, (createAndOpen cd w path).2))
    ∧ (∀ path, find cd w q o a f = .DoesNotExist path →
        setup cd w q o a f = createAndOpen cd w path) := by
  refine ⟨?_, ?_, ?_, ?_, ?_, ?_⟩
  · intro h
    simp [setup, setup_replace_invalid, h]
  · intro path h
    simp [setup, setup_replace_invalid, h]
  · intro path e h
    simp [setup, setup_replace_invalid, h]
  · intro path r h
    simp [setup, setup_replace_invalid, h]
  · intro path e h
    simp [setup_replace_invalid, h]
  · intro path h
    simp [setup, h]

/-- Claim C4 witness: on the sample world whose file is unparsable, the
replacing variant runs the create-and-reopen branch. -/
theorem C4_witness :
    setup_replace_invalid cdId wBad "q" "o" "app" "cfg.toml"
      = (some (createAndOpen cdId wBad pCfg).1, (createAndOpen cdId wBad pCfg).2) :=
  (C4_replace_invalid cdId wBad "q" "o" "app" "cfg.toml").2.2.2.2.1
    pCfg "expected table" rfl

/-- Claim C10: the unreachable panic in the FileInvalid arm of the second
match of setup_replace_invalid (modelled as the result none) is never
executed: every input produces some ordinary result. -/
theorem C10_unreachable_arm (cd : ConfigData Cfg) (w : World)
    (q o a f : String) :
    ((setup_replace_invalid cd w q o a f).1).isSome = true := by
  unfold setup_replace_invalid
  rcases hf : find cd w q o a f with path | ⟨path, op⟩ | _
  · rfl
  · rcases op with e | e | c <;> rfl
  · rfl

/-- reload never changes the bound path of a handle. -/
lemma reload_path (cd : ConfigData Cfg) (w : World) (cf : ConfigFile Cfg) :
    ((reload cd w cf).2).path = cf.path := by
  unfold reload
  cases openCfg cd w cf.path <;> rfl

/-- The bound path survives any sequence of handle operations. -/
lemma runOps_path (cd : ConfigData Cfg) (ops : List HandleOp) :
    ∀ (w : World) (cf : ConfigFile Cfg),
      ((runOps cd ops w cf).2).path = cf.path := by
  induction ops with
  | nil => intro w cf; rfl
  | cons op rest ih =>
    intro w cf
    cases op with
    | reloadOp =>
      rw [runOps, ih]
      exact reload_path cd w cf
    | saveOp b p =>
      rw [runOps]
      exact ih _ _

/-- A successful parentStep changes no files. -/
lemma parentStep_files (w : World) (path : FsPath) (w1 : World)
    (h : parentStep w path = .ok w1) : w1.files = w.files := by
  unfold parentStep at h
  cases hp : path.parentDir with
  | none =>
    rw [hp] at h
    injection h with h
    rw [← h]
  | some parent =>
    rw [hp] at h
    by_cases he : pathExists w parent
    · simp [he] at h
      rw [← h]
    · simp [he] at h
      unfold createDirAll at h
      cases hm : fsLookup w.mkdirFail parent with
      | some e => simp [hm] at h
      | none =>
        simp [hm] at h
        rw [← h]

/-- The best-effort backup move touches no file other than the path it
moves and its backup name. -/
lemma backupStep_files_ne (w : World) (path q : FsPath)
    (hq : q ≠ path) (hb : get_backup path ≠ some q) :
    fsLookup ((backupStep w path).files) q = fsLookup w.files q := by
  unfold backupStep
  cases hgb : get_backup path with
  | none => rfl
  | some b =>
    have hbq : q ≠ b := fun hc => hb (by rw [hgb, hc])
    unfold renameFs
    cases hr : fsLookup w.renameFail path with
    | some e => rfl
    | none =>
      cases hf : fsLookup w.files path with
      | none => rfl
      | some c =>
        simp only
        rw [fsLookup_fsInsert_ne _ _ _ _ hbq]
        exact fsLookup_fsRemove_ne _ _ _ hq

/-- The backup-or-parent policy touches no file other than the given path
and its backup name. -/
lemma backupOrParent_files_ne (w : World) (path : FsPath) (cb cp : Bool)
    (w1 : World) (q : FsPath) (hok : backupOrParent w path cb cp = .ok w1)
    (hq : q ≠ path) (hb : get_backup path ≠ some q) :
    fsLookup w1.files q = fsLookup w.files q := by
  unfold backupOrParent at hok
  by_cases h1 : (cb && pathExists w path) = true
  · rw [if_pos h1] at hok
    injection hok with hok
    rw [← hok]
    exact backupStep_files_ne w path q hq hb
  · rw [if_neg h1] at hok
    cases cp with
    | true =>
      simp at hok
      rw [parentStep_files w path w1 hok]
    | false =>
      simp at hok
      rw [← hok]

/-- Claim C9: the bound path is fixed at construction (with_path) and
unchanged by any sequence of reload and save calls; save writes only to
the bound path and its backup name; and reload depends only on the world
state at the bound path. -/
theorem C9_path_frame (cd : ConfigData Cfg) (ops : List HandleOp) (w : World)
    (cf : ConfigFile Cfg) :
    ((runOps cd ops w cf).2).path = cf.path
    ∧ (∀ (d : Cfg) (p : FsPath), (with_path d p).path = p)
    ∧ (∀ b pr q2, q2 ≠ cf.path → get_backup cf.path ≠ some q2 →
        fsLookup ((save cd w cf b pr).2).files q2 = fsLookup w.files q2)
    ∧ (∀ w2, fsLookup w.files cf.path = fsLookup w2.files cf.path →
        fsLookup w.openFail cf.path = fsLookup w2.openFail cf.path →
        fsLookup w.seekFail cf.path = fsLookup w2.seekFail cf.path →
        fsLookup w.rewindFail cf.path = fsLookup w2.rewindFail cf.path →
        fsLookup w.readFail cf.path = fsLookup w2.readFail cf.path →
        reload cd w cf = reload cd w2 cf) := by
  refine ⟨runOps_path cd ops w cf, fun d p => rfl, ?_, ?_⟩
  · intro b pr q2 hq hb
    unfold save
    cases hbp : backupOrParent w cf.path b pr with
    | error e => simp only [hbp]
    | ok w1 =>
      simp only [hbp]
      have hw1 : fsLookup w1.files q2 = fsLookup w.files q2 :=
        backupOrParent_files_ne w cf.path b pr w1 q2 hbp hq hb
      cases hs : cd.serialize cf.data with
      | error e => simp only [hs]; exact hw1
      | ok s =>
        simp only [hs]
        unfold fileCreate writeAll
        cases hc : fsLookup w1.createFail cf.path with
        | some e => simp only [hc]; exact hw1
        | none =>
          simp only [hc]
          cases hwp : fsLookup w1.writeFail cf.path with
          | some e =>
            simp only [hwp]
            rw [fsLookup_fsInsert_ne _ _ _ _ hq]
            exact hw1
          | none =>
            simp only [hwp]
            rw [fsLookup_fsInsert_ne _ _ _ _ hq, fsLookup_fsInsert_ne _ _ _ _ hq]
            exact hw1
  · intro w2 h1 h2 h3 h4 h5
    unfold reload openCfg fileOpenR seekEndR rewindR readR
    rw [h1, h2, h3, h4, h5]

/-- Claim C9 witness: a save against the sample handle leaves the file
table unchanged at the unrelated home path. -/
theorem C9_witness :
    fsLookup ((save cdInv wGood cfSample true false).2).files pHome
      = fsLookup wGood.files pHome :=
  (C9_path_frame cdInv [] wGood cfSample).2.2.1 true false pHome
    (by decide) (by decide)

end Tomlconf
